import Mathlib

/-!
Verification of the `s3-uploader` command-line program (`uploader.py`).

The program parses CLI flags, resolves the source path against the
program's own directory, and uploads either a single file or a directory
tree to an S3-compatible store.  The embedding below models:

* `stripSlashes`    — Python `str.strip('/')`;
* `basename`        — Python `os.path.basename`;
* `pathJoin`        — `pathlib.Path.joinpath` (an absolute argument
                      replaces the base path);
* `path_object`     — the argparse `type=` converter validating `--path`;
* `parseVisibility` — the argparse `choices=`/`default=` handling of
                      `--s3_visibility`;
* `store_at` / `singleFileKey` / `dirKey`
                    — the destination-key construction of `upload_file`
                      and `upload_dir`;
* `upload_file` / `upload_dir`
                    — the upload routines, parameterised by the mimetype
                      guesser (`mimetypes.guess_type`) and by whether the
                      storage client call succeeds; they return the list
                      of client calls attempted and an optional error;
* `bytes_count` / `runCallbacks`
                    — the progress callback closure of `upload_file`
                      (state: the `bytes_transferred` accumulator and the
                      tqdm bar position, which `update` increments);
* `parse_args` / `runMain`
                    — argument parsing and the entry-point dispatch.
-/

/-- Python `s.strip('/')`: remove every leading and trailing `'/'`. -/
def stripSlashes (s : String) : String :=
  ⟨((s.data.dropWhile (· == '/')).reverse.dropWhile (· == '/')).reverse⟩

/-- Scan a character list for two adjacent slashes. -/
def hasDoubleSlashAux : List Char → Bool
  | [] => false
  | [_] => false
  | a :: b :: rest => (a == '/' && b == '/') || hasDoubleSlashAux (b :: rest)

/-- Whether a string contains `"//"` as a substring. -/
def hasDoubleSlash (s : String) : Bool :=
  hasDoubleSlashAux s.data

/-- Helper for `basename`: keep the characters after the last `'/'`. -/
def basenameAux : List Char → List Char → List Char
  | [], acc => acc.reverse
  | c :: rest, acc =>
    if c == '/' then basenameAux rest [] else basenameAux rest (c :: acc)

/-- Python `os.path.basename`: the part after the last `'/'`. -/
def basename (p : String) : String :=
  ⟨basenameAux p.data []⟩

/-- Whether a path argument is absolute (starts with `'/'`). -/
def absoluteArg (value : String) : Bool :=
  match value.data with
  | [] => false
  | c :: _ => c == '/'

/-- `pathlib.Path.joinpath`: an absolute argument replaces the base. -/
def pathJoin (base value : String) : String :=
  if absoluteArg value then value else base ++ "/" ++ value

/-- `ALLOWED_VISIBILITIES = ['private', 'public-read']`. -/
def ALLOWED_VISIBILITIES : List String :=
  ["private", "public-read"]

/-- The argparse `type=` converter for `--path`: join the value onto the
program's directory and fail with a usage error when the result does not
exist on disk (`pathExists` abstracts the filesystem). -/
def path_object (pathExists : String → Bool) (baseDir value : String) :
    Except String String :=
  let abspath := pathJoin baseDir value
  if pathExists abspath then
    Except.ok abspath
  else
    Except.error
      ("Unable to resolve path `" ++ abspath ++
        "`. Path argument must be a valid path.")

/-- The argparse handling of `--s3_visibility`: `choices=ALLOWED_VISIBILITIES`
rejects any other value; omitting the flag yields `ALLOWED_VISIBILITIES[0]`. -/
def parseVisibility : Option String → Except String String
  | none => Except.ok (ALLOWED_VISIBILITIES.getD 0 "")
  | some v =>
    if ALLOWED_VISIBILITIES.contains v then
      Except.ok v
    else
      Except.error ("argument --s3_visibility: invalid choice: " ++ v)

/-- The `store_at` computation shared by `upload_file` and `upload_dir`:
`store_at = s3_path.strip('/')`, then `if prefix: store_at = f"{prefix}/{store_at}"`
(a `None` or empty root is falsy in Python and leaves `store_at` unchanged). -/
def store_at (s3_root : Option String) (s3_path : String) : String :=
  match s3_root with
  | none => stripSlashes s3_path
  | some r => if r = "" then stripSlashes s3_path else r ++ "/" ++ stripSlashes s3_path

/-- The destination key of `upload_file`:
`store_at = f"{store_at}/{os.path.basename(input_arguments.path)}"`. -/
def singleFileKey (s3_root : Option String) (s3_path path : String) : String :=
  store_at s3_root s3_path ++ "/" ++ basename path

/-- The destination key of `upload_dir` for one file:
`key = f"{store_at}/{filepath.relative_to(input_arguments.path).as_posix()}"`,
with `rel` the file's POSIX-style path relative to the source directory. -/
def dirKey (s3_root : Option String) (s3_path rel : String) : String :=
  store_at s3_root s3_path ++ "/" ++ rel

/-- One call to `client.upload_file`: the arguments passed, and whether the
storage client completed it (`ok = false` means the call raised). -/
structure UploadCall where
  filename : String
  bucket : String
  key : String
  acl : String
  contentType : String
  ok : Bool
deriving Repr, DecidableEq

/-- `upload_file`: compute the key, guess the mimetype (raising when it is
`None`), then call the client once.  Returns the client calls made and an
optional fatal error.  `guessType` abstracts `mimetypes.guess_type`;
`clientOk` abstracts whether the storage client call succeeds. -/
def upload_file (guessType : String → Option String) (clientOk : String → Bool)
    (s3_root : Option String) (s3_path s3_bucket s3_visibility path : String) :
    List UploadCall × Option String :=
  let key := singleFileKey s3_root s3_path path
  match guessType path with
  | none => ([], some ("Failed to guess mimetype of `" ++ path ++ "`"))
  | some mt =>
    if clientOk path then
      ([{ filename := path, bucket := s3_bucket, key := key, acl := s3_visibility,
          contentType := mt, ok := true }], none)
    else
      ([{ filename := path, bucket := s3_bucket, key := key, acl := s3_visibility,
          contentType := mt, ok := false }], some "client upload error")

/-- `upload_dir`: iterate over the regular files of the tree (given as their
POSIX-style paths relative to the source directory `srcDir`), computing a key
and guessing a mimetype per file, and uploading one file at a time; the first
failure (unguessable mimetype, or a storage-client error) raises and stops the
loop.  Returns the client calls attempted, in order, and an optional error. -/
def upload_dir (guessType : String → Option String) (clientOk : String → Bool)
    (s3_root : Option String) (s3_path s3_bucket s3_visibility srcDir : String) :
    List String → List UploadCall × Option String
  | [] => ([], none)
  | rel :: rest =>
    let filepath := srcDir ++ "/" ++ rel
    let key := dirKey s3_root s3_path rel
    match guessType filepath with
    | none => ([], some ("Failed to guess mimetype of `" ++ filepath ++ "`"))
    | some mt =>
      if clientOk filepath then
        let r := upload_dir guessType clientOk s3_root s3_path s3_bucket
          s3_visibility srcDir rest
        ({ filename := filepath, bucket := s3_bucket, key := key, acl := s3_visibility,
           contentType := mt, ok := true } :: r.1, r.2)
      else
        ([{ filename := filepath, bucket := s3_bucket, key := key, acl := s3_visibility,
            contentType := mt, ok := false }], some "client upload error")

/-- The `UploadCall` that `upload_dir` makes for the file `rel`. -/
def dirCall (guessType : String → Option String) (s3_root : Option String)
    (s3_path s3_bucket s3_visibility srcDir rel : String) (ok : Bool) : UploadCall :=
  { filename := srcDir ++ "/" ++ rel
    bucket := s3_bucket
    key := dirKey s3_root s3_path rel
    acl := s3_visibility
    contentType := (guessType (srcDir ++ "/" ++ rel)).getD ""
    ok := ok }

/-- The `bytes_count` closure of `upload_file` acting on its state
`(bytes_transferred, bar position)`:
`bytes_transferred += size; progress_bar.update(bytes_transferred)`,
where `tqdm.update(n)` advances the bar position by `n`. -/
def bytes_count (st : Nat × Nat) (size : Nat) : Nat × Nat :=
  let bytes_transferred := st.1 + size
  (bytes_transferred, st.2 + bytes_transferred)

/-- Run the progress callback over the chunk sizes the client reports,
starting from `bytes_transferred = 0` and a fresh bar at position `0`. -/
def runCallbacks (sizes : List Nat) : Nat × Nat :=
  sizes.foldl bytes_count (0, 0)

/-- The raw command-line flag values (`None` for an omitted optional flag). -/
structure RawArgs where
  s3_access_key : String
  s3_secret : String
  s3_endpoint : String
  s3_region : String
  s3_bucket : String
  s3_path : String
  path : String
  s3_root : Option String
  s3_visibility : Option String

/-- The validated configuration produced by `parse_args`. -/
structure Config where
  s3_bucket : String
  s3_path : String
  path : String
  s3_root : Option String
  s3_visibility : String

/-- `parse_args`: validate `--path` through `path_object` and
`--s3_visibility` through its `choices`; any failure aborts parsing. -/
def parse_args (pathExists : String → Bool) (baseDir : String) (raw : RawArgs) :
    Except String Config :=
  match path_object pathExists baseDir raw.path with
  | Except.error e => Except.error e
  | Except.ok p =>
    match parseVisibility raw.s3_visibility with
    | Except.error e => Except.error e
    | Except.ok vis =>
      Except.ok { s3_bucket := raw.s3_bucket, s3_path := raw.s3_path, path := p,
                  s3_root := raw.s3_root, s3_visibility := vis }

/-- The environment the program runs in: the filesystem and the behaviour of
the mimetype guesser and the storage client. -/
structure Env where
  pathExists : String → Bool
  baseDir : String
  isDir : String → Bool
  listFiles : String → List String
  guessType : String → Option String
  clientOk : String → Bool

/-- `main`: parse the arguments, then dispatch on whether the resolved source
path is a directory.  A parse failure terminates before any client call. -/
def runMain (env : Env) (raw : RawArgs) : List UploadCall × Option String :=
  match parse_args env.pathExists env.baseDir raw with
  | Except.error e => ([], some e)
  | Except.ok cfg =>
    if env.isDir cfg.path then
      upload_dir env.guessType env.clientOk cfg.s3_root cfg.s3_path cfg.s3_bucket
        cfg.s3_visibility cfg.path (env.listFiles cfg.path)
    else
      upload_file env.guessType env.clientOk cfg.s3_root cfg.s3_path cfg.s3_bucket
        cfg.s3_visibility cfg.path

/-! ## Helper lemmas -/

theorem str_mk_data (s : String) : String.mk s.data = s := by
  cases s
  rfl

theorem str_data_inj {a b : String} (h : a.data = b.data) : a = b := by
  cases a
  cases b
  simp only at h
  subst h
  rfl

theorem str_app_left_cancel (a b c : String) (h : a ++ b = a ++ c) : b = c := by
  have h2 : a.data ++ b.data = a.data ++ c.data := by
    rw [← String.data_append, ← String.data_append, h]
  exact str_data_inj (List.append_cancel_left h2)

theorem append_beq (a b c : String) : (a ++ b == a ++ c) = (b == c) := by
  cases hbc : b == c with
  | true =>
    have hb : b = c := eq_of_beq hbc
    subst hb
    simp
  | false =>
    have hne : b ≠ c := beq_eq_false_iff_ne.mp hbc
    have hne2 : a ++ b ≠ a ++ c := fun he => hne (str_app_left_cancel a b c he)
    exact beq_eq_false_iff_ne.mpr hne2

theorem head?_dropWhile_false {α} (p : α → Bool) (l : List α) :
    ∀ c, (l.dropWhile p).head? = some c → p c = false := by
  induction l with
  | nil =>
    intro c h
    simp at h
  | cons a t ih =>
    intro c h
    by_cases hpa : p a
    · rw [List.dropWhile_cons_of_pos hpa] at h
      exact ih c h
    · rw [List.dropWhile_cons_of_neg hpa] at h
      simp only [List.head?_cons, Option.some.injEq] at h
      subst h
      exact Bool.eq_false_iff.mpr hpa

theorem getLast?_dropWhile {α} (p : α → Bool) (l : List α)
    (h : l.dropWhile p ≠ []) : (l.dropWhile p).getLast? = l.getLast? := by
  induction l with
  | nil => simp at h
  | cons a t ih =>
    by_cases hpa : p a
    · rw [List.dropWhile_cons_of_pos hpa] at h ⊢
      rw [ih h]
      have ht : t ≠ [] := by
        intro he
        subst he
        simp at h
      cases t with
      | nil => exact absurd rfl ht
      | cons b t2 => rw [List.getLast?_cons_cons]
    · rw [List.dropWhile_cons_of_neg hpa]

theorem dropWhile_eq_self_of_head {α} (p : α → Bool) (l : List α)
    (h : ∀ c, l.head? = some c → p c = false) : l.dropWhile p = l := by
  cases l with
  | nil => rfl
  | cons a t =>
    have ha := h a rfl
    exact List.dropWhile_cons_of_neg (by simp [ha])

theorem stripSlashes_head? (s : String) :
    ∀ c, (stripSlashes s).data.head? = some c → c ≠ '/' := by
  intro c h
  unfold stripSlashes at h
  simp only [List.head?_reverse] at h
  have hne : (s.data.dropWhile (· == '/')).reverse.dropWhile (· == '/') ≠ [] := by
    intro he
    rw [he] at h
    simp at h
  rw [getLast?_dropWhile _ _ hne, List.getLast?_reverse] at h
  have := head?_dropWhile_false (· == '/') s.data c h
  simpa using this

theorem stripSlashes_getLast? (s : String) :
    ∀ c, (stripSlashes s).data.getLast? = some c → c ≠ '/' := by
  intro c h
  unfold stripSlashes at h
  simp only [List.getLast?_reverse] at h
  have := head?_dropWhile_false (· == '/') (s.data.dropWhile (· == '/')).reverse c h
  simpa using this

theorem stripSlashes_eq_self (t : String)
    (h1 : ∀ c, t.data.head? = some c → c ≠ '/')
    (h2 : ∀ c, t.data.getLast? = some c → c ≠ '/') :
    stripSlashes t = t := by
  unfold stripSlashes
  have hA : t.data.dropWhile (· == '/') = t.data :=
    dropWhile_eq_self_of_head _ _ (fun c hc => by simpa using h1 c hc)
  rw [hA]
  have hB : t.data.reverse.dropWhile (· == '/') = t.data.reverse :=
    dropWhile_eq_self_of_head _ _ (fun c hc => by
      rw [List.head?_reverse] at hc
      simpa using h2 c hc)
  rw [hB, List.reverse_reverse]

theorem stripSlashes_idem (s : String) :
    stripSlashes (stripSlashes s) = stripSlashes s :=
  stripSlashes_eq_self (stripSlashes s) (stripSlashes_head? s) (stripSlashes_getLast? s)

theorem store_at_strip (s3_root : Option String) (d : String) :
    store_at s3_root (stripSlashes d) = store_at s3_root d := by
  cases s3_root with
  | none => simp [store_at, stripSlashes_idem]
  | some r => simp [store_at, stripSlashes_idem]

theorem hasDoubleSlashAux_cons (a : Char) (xs : List Char)
    (h : hasDoubleSlashAux xs = true) : hasDoubleSlashAux (a :: xs) = true := by
  cases xs with
  | nil => simp [hasDoubleSlashAux] at h
  | cons b ys => simp [hasDoubleSlashAux, h]

theorem hasDoubleSlashAux_append_left (l1 l2 : List Char)
    (h : hasDoubleSlashAux l2 = true) : hasDoubleSlashAux (l1 ++ l2) = true := by
  induction l1 with
  | nil => simpa using h
  | cons a t ih => exact hasDoubleSlashAux_cons a _ ih

theorem hasDoubleSlashAux_append_right (l1 l2 : List Char)
    (h : hasDoubleSlashAux l1 = true) : hasDoubleSlashAux (l1 ++ l2) = true := by
  induction l1 with
  | nil => simp [hasDoubleSlashAux] at h
  | cons a t ih =>
    cases t with
    | nil => simp [hasDoubleSlashAux] at h
    | cons b ys =>
      simp only [hasDoubleSlashAux, Bool.or_eq_true] at h
      rcases h with h | h
      · simp [List.cons_append, hasDoubleSlashAux, h]
      · exact hasDoubleSlashAux_cons a _ (ih h)

theorem hasDoubleSlash_append_mid (a b : String) :
    hasDoubleSlash (a ++ "//" ++ b) = true := by
  unfold hasDoubleSlash
  have hd : ("//" : String).data = ['/', '/'] := rfl
  rw [String.data_append, String.data_append, hd, List.append_assoc]
  exact hasDoubleSlashAux_append_left _ _ (by simp [hasDoubleSlashAux])

theorem hasDoubleSlash_append_of_left (a b : String) (h : hasDoubleSlash a = true) :
    hasDoubleSlash (a ++ b) = true := by
  unfold hasDoubleSlash at h ⊢
  rw [String.data_append]
  exact hasDoubleSlashAux_append_right _ _ h

theorem hasDoubleSlash_trailing_root (r0 x : String) :
    hasDoubleSlash ((r0 ++ "/") ++ "/" ++ x) = true := by
  have h : (r0 ++ "/") ++ "/" ++ x = r0 ++ "//" ++ x := by
    apply str_data_inj
    have hd : ("/" : String).data = ['/'] := rfl
    have hd2 : ("//" : String).data = ['/', '/'] := rfl
    simp [String.data_append, hd, hd2]
  rw [h]
  exact hasDoubleSlash_append_mid r0 x

/-! ## Claim theorems -/

/-- C7: for every destination path, including ones with leading and/or
trailing slashes, the computed key embeds the destination path with all its
leading and trailing slashes stripped, in both single-file and directory
upload: the key depends on the destination path only through its stripped
form, and the stripped form has no leading and no trailing slash. -/
theorem dest_slashes_stripped (s3_root : Option String) (d p rel : String) :
    singleFileKey s3_root d p = singleFileKey s3_root (stripSlashes d) p ∧
    dirKey s3_root d rel = dirKey s3_root (stripSlashes d) rel ∧
    (stripSlashes d).data.head? ≠ some '/' ∧
    (stripSlashes d).data.getLast? ≠ some '/' := by
  refine ⟨?_, ?_, ?_, ?_⟩
  · unfold singleFileKey
    rw [store_at_strip]
  · unfold dirKey
    rw [store_at_strip]
  · intro h
    exact stripSlashes_head? d '/' h rfl
  · intro h
    exact stripSlashes_getLast? d '/' h rfl

/-- C7 witness: concrete instance with a destination path `"/store/"`. -/
theorem dest_slashes_stripped_witness :
    singleFileKey (some "assets") "/store/" "/tmp/f.txt" =
      singleFileKey (some "assets") (stripSlashes "/store/") "/tmp/f.txt" ∧
    dirKey (some "assets") "/store/" "a/b.txt" =
      dirKey (some "assets") (stripSlashes "/store/") "a/b.txt" ∧
    (stripSlashes "/store/").data.head? ≠ some '/' ∧
    (stripSlashes "/store/").data.getLast? ≠ some '/' :=
  dest_slashes_stripped (some "assets") "/store/" "/tmp/f.txt" "a/b.txt"

/-- C2 counterexample: with the root prefix set to `assets/`, the single-file
key for destination `store` and file `/tmp/f.txt` is `assets//store/f.txt`,
which contains a doubled slash: the whole key is not stripped of redundant
slashes, and the components are not joined by single slashes. -/
theorem single_key_redundant_slash_cex :
    singleFileKey (some "assets/") "store" "/tmp/f.txt" = "assets//store/f.txt" ∧
    hasDoubleSlash (singleFileKey (some "assets/") "store" "/tmp/f.txt") = true ∧
    singleFileKey (some "assets/") "store" "/tmp/f.txt" ≠ "assets/store/f.txt" := by
  decide

/-- C2 (amended): for every single-file upload whose mimetype is guessed and
whose client call succeeds, exactly one client call is made, with key
`<root>/<dest>/<basename>` where `<dest>` is the destination path stripped of
leading/trailing slashes and `<root>` is the root prefix embedded verbatim
(omitted together with its slash when the prefix is unset or empty); only the
destination path is stripped, so the key is not in general free of redundant
slashes. -/
theorem upload_file_key_shape (guessType : String → Option String)
    (clientOk : String → Bool) (s3_root : Option String)
    (d bucket vis p mt : String)
    (hg : guessType p = some mt) (hc : clientOk p = true) :
    upload_file guessType clientOk s3_root d bucket vis p =
      ([{ filename := p, bucket := bucket, key := singleFileKey s3_root d p,
          acl := vis, contentType := mt, ok := true }], none) ∧
    (∀ r, s3_root = some r → r ≠ "" →
      singleFileKey s3_root d p = r ++ "/" ++ stripSlashes d ++ "/" ++ basename p) ∧
    ((s3_root = none ∨ s3_root = some "") →
      singleFileKey s3_root d p = stripSlashes d ++ "/" ++ basename p) := by
  refine ⟨?_, ?_, ?_⟩
  · simp [upload_file, hg, hc]
  · intro r hr hne
    subst hr
    simp [singleFileKey, store_at, hne]
  · rintro (h | h) <;> subst h <;> simp [singleFileKey, store_at]

/-- C2 witness: concrete successful single-file upload. -/
theorem upload_file_key_shape_witness :
    upload_file (fun _ => some "text/plain") (fun _ => true) (some "assets")
        "store" "bkt" "private" "/tmp/f.txt" =
      ([{ filename := "/tmp/f.txt", bucket := "bkt",
          key := singleFileKey (some "assets") "store" "/tmp/f.txt",
          acl := "private", contentType := "text/plain", ok := true }], none) ∧
    (∀ r, (some "assets" : Option String) = some r → r ≠ "" →
      singleFileKey (some "assets") "store" "/tmp/f.txt" =
        r ++ "/" ++ stripSlashes "store" ++ "/" ++ basename "/tmp/f.txt") ∧
    (((some "assets" : Option String) = none ∨
        (some "assets" : Option String) = some "") →
      singleFileKey (some "assets") "store" "/tmp/f.txt" =
        stripSlashes "store" ++ "/" ++ basename "/tmp/f.txt") :=
  upload_file_key_shape (fun _ => some "text/plain") (fun _ => true)
    (some "assets") "store" "bkt" "private" "/tmp/f.txt" "text/plain" rfl rfl

/-- C9 counterexample: a root prefix with only a leading slash is embedded
verbatim, yet the resulting keys contain no doubled slash, so "the computed
key contains doubled slashes" does not hold for every root prefix containing
leading, trailing, or repeated slashes. -/
theorem root_leading_slash_cex :
    singleFileKey (some "/assets") "store" "/tmp/f.txt" = "/assets/store/f.txt" ∧
    hasDoubleSlash (singleFileKey (some "/assets") "store" "/tmp/f.txt") = false ∧
    dirKey (some "/assets") "store" "a/b.txt" = "/assets/store/a/b.txt" ∧
    hasDoubleSlash (dirKey (some "/assets") "store" "a/b.txt") = false := by
  decide

/-- C9 (amended): the root prefix is never normalized: every set non-empty
root is embedded verbatim in both single-file and directory keys, and only the
destination path is slash-stripped; a root with a trailing slash, or one
already containing a doubled slash, therefore yields keys containing doubled
slashes (for example `assets/` yields `assets//store/...`), while a root with
only a leading slash yields a leading, not doubled, slash in the key. -/
theorem root_verbatim (r d p rel : String) (hr : r ≠ "") :
    singleFileKey (some r) d p = r ++ "/" ++ stripSlashes d ++ "/" ++ basename p ∧
    dirKey (some r) d rel = r ++ "/" ++ stripSlashes d ++ "/" ++ rel ∧
    (∀ r0, r = r0 ++ "/" →
      hasDoubleSlash (singleFileKey (some r) d p) = true ∧
      hasDoubleSlash (dirKey (some r) d rel) = true) ∧
    (hasDoubleSlash r = true →
      hasDoubleSlash (singleFileKey (some r) d p) = true ∧
      hasDoubleSlash (dirKey (some r) d rel) = true) := by
  have hk1 : singleFileKey (some r) d p =
      r ++ "/" ++ stripSlashes d ++ "/" ++ basename p := by
    simp [singleFileKey, store_at, hr]
  have hk2 : dirKey (some r) d rel = r ++ "/" ++ stripSlashes d ++ "/" ++ rel := by
    simp [dirKey, store_at, hr]
  refine ⟨hk1, hk2, ?_, ?_⟩
  · intro r0 h0
    constructor
    · rw [hk1, h0]
      exact hasDoubleSlash_append_of_left _ _
        (hasDoubleSlash_append_of_left _ _ (hasDoubleSlash_trailing_root r0 _))
    · rw [hk2, h0]
      exact hasDoubleSlash_append_of_left _ _
        (hasDoubleSlash_append_of_left _ _ (hasDoubleSlash_trailing_root r0 _))
  · intro h
    constructor
    · rw [hk1]
      exact hasDoubleSlash_append_of_left _ _
        (hasDoubleSlash_append_of_left _ _
          (hasDoubleSlash_append_of_left _ _ (hasDoubleSlash_append_of_left _ _ h)))
    · rw [hk2]
      exact hasDoubleSlash_append_of_left _ _
        (hasDoubleSlash_append_of_left _ _
          (hasDoubleSlash_append_of_left _ _ (hasDoubleSlash_append_of_left _ _ h)))

/-- C9 witness: the root `assets/` produces keys with doubled slashes. -/
theorem root_verbatim_witness :
    singleFileKey (some "assets/") "store" "/tmp/f.txt" =
      "assets/" ++ "/" ++ stripSlashes "store" ++ "/" ++ basename "/tmp/f.txt" ∧
    dirKey (some "assets/") "store" "a/b.txt" =
      "assets/" ++ "/" ++ stripSlashes "store" ++ "/" ++ "a/b.txt" ∧
    (∀ r0, ("assets/" : String) = r0 ++ "/" →
      hasDoubleSlash (singleFileKey (some "assets/") "store" "/tmp/f.txt") = true ∧
      hasDoubleSlash (dirKey (some "assets/") "store" "a/b.txt") = true) ∧
    (hasDoubleSlash "assets/" = true →
      hasDoubleSlash (singleFileKey (some "assets/") "store" "/tmp/f.txt") = true ∧
      hasDoubleSlash (dirKey (some "assets/") "store" "a/b.txt") = true) :=
  root_verbatim "assets/" "store" "/tmp/f.txt" "a/b.txt" (by decide)

/-- C10: passing `--s3_root` as the empty string behaves exactly as omitting
the flag: the root segment is dropped from `store_at`, from both key forms,
and from whole runs of `upload_file` and `upload_dir`; inclusion of the root
segment is decided by the prefix being non-empty. -/
theorem empty_root_like_unset (guessType : String → Option String)
    (clientOk : String → Bool) (d bucket vis p srcDir : String)
    (files : List String) (rel : String) :
    store_at (some "") d = store_at none d ∧
    singleFileKey (some "") d p = singleFileKey none d p ∧
    dirKey (some "") d rel = dirKey none d rel ∧
    upload_file guessType clientOk (some "") d bucket vis p =
      upload_file guessType clientOk none d bucket vis p ∧
    upload_dir guessType clientOk (some "") d bucket vis srcDir files =
      upload_dir guessType clientOk none d bucket vis srcDir files ∧
    (∀ r, r ≠ "" → store_at (some r) d = r ++ "/" ++ stripSlashes d) := by
  refine ⟨by simp [store_at], by simp [singleFileKey, store_at],
    by simp [dirKey, store_at], ?_, ?_, ?_⟩
  · cases hg : guessType p with
    | none => simp [upload_file, hg]
    | some mt =>
      cases hc : clientOk p with
      | false => simp [upload_file, hg, hc, singleFileKey, store_at]
      | true => simp [upload_file, hg, hc, singleFileKey, store_at]
  · induction files with
    | nil => rfl
    | cons a t ih =>
      cases hg : guessType (srcDir ++ "/" ++ a) with
      | none => simp [upload_dir, hg]
      | some mt =>
        cases hc : clientOk (srcDir ++ "/" ++ a) with
        | false => simp [upload_dir, hg, hc, dirKey, store_at]
        | true => simp [upload_dir, hg, hc, dirKey, store_at, ih]
  · intro r hrne
    simp [store_at, hrne]

/-- C10 witness: concrete instance of the empty-root equivalences. -/
theorem empty_root_like_unset_witness :
    store_at (some "") "store" = store_at none "store" ∧
    singleFileKey (some "") "store" "/tmp/f.txt" =
      singleFileKey none "store" "/tmp/f.txt" ∧
    dirKey (some "") "store" "a/b.txt" = dirKey none "store" "a/b.txt" ∧
    upload_file (fun _ => some "text/plain") (fun _ => true) (some "") "store"
        "bkt" "private" "/tmp/f.txt" =
      upload_file (fun _ => some "text/plain") (fun _ => true) none "store"
        "bkt" "private" "/tmp/f.txt" ∧
    upload_dir (fun _ => some "text/plain") (fun _ => true) (some "") "store"
        "bkt" "private" "/data" ["a/b.txt"] =
      upload_dir (fun _ => some "text/plain") (fun _ => true) none "store"
        "bkt" "private" "/data" ["a/b.txt"] ∧
    (∀ r, r ≠ "" → store_at (some r) "store" = r ++ "/" ++ stripSlashes "store") :=
  empty_root_like_unset (fun _ => some "text/plain") (fun _ => true) "store"
    "bkt" "private" "/tmp/f.txt" "/data" ["a/b.txt"] "a/b.txt"

/-- C4 (code bug): the progress callback adds each chunk size to the running
total and then advances the tqdm bar by that running total, so after chunk
sizes `[1, 1]` the bar position is `3`, not the cumulative `2` bytes the
claim requires; the internal accumulator itself is the correct `2`. -/
theorem progress_double_count :
    (runCallbacks [1, 1]).2 = 3 ∧
    List.sum [1, 1] = 2 ∧
    (runCallbacks [1, 1]).2 ≠ List.sum [1, 1] ∧
    (runCallbacks [1, 1]).1 = 2 := by
  decide

theorem upload_dir_ok_eq (guessType : String → Option String)
    (clientOk : String → Bool) (s3_root : Option String)
    (s3_path s3_bucket vis srcDir : String) :
    ∀ files : List String,
      (∀ r ∈ files, (guessType (srcDir ++ "/" ++ r)).isSome = true ∧
        clientOk (srcDir ++ "/" ++ r) = true) →
      upload_dir guessType clientOk s3_root s3_path s3_bucket vis srcDir files =
        (files.map
          (fun r => dirCall guessType s3_root s3_path s3_bucket vis srcDir r true),
          none) := by
  intro files
  induction files with
  | nil => intro _; rfl
  | cons a t ih =>
    intro h
    obtain ⟨hg, hc⟩ := h a (List.mem_cons_self a t)
    obtain ⟨mt, hmt⟩ := Option.isSome_iff_exists.mp hg
    have ht := fun r hr => h r (List.mem_cons_of_mem a hr)
    simp [upload_dir, hmt, hc, ih ht, dirCall]

/-- C1: for a directory upload over source directory `D` in which every file's
mimetype is guessed and every client call succeeds, each regular file `rel`
(its POSIX-style path relative to `D`, the file list being duplicate-free as
`rglob` guarantees) receives exactly one client call, and that call's key is
`<root>/<dest>/<rel>` with `<dest>` the slash-stripped destination path, the
`<root>/` segment being omitted when the root prefix is unset. -/
theorem upload_dir_unique_posix_keys (guessType : String → Option String)
    (clientOk : String → Bool) (s3_root : Option String)
    (s3_path bucket vis srcDir : String) (files : List String) (rel : String)
    (hok : ∀ r ∈ files, (guessType (srcDir ++ "/" ++ r)).isSome = true ∧
      clientOk (srcDir ++ "/" ++ r) = true)
    (hnd : files.Nodup) (hmem : rel ∈ files) :
    ((upload_dir guessType clientOk s3_root s3_path bucket vis srcDir files).1.filter
        (fun c => c.filename == srcDir ++ "/" ++ rel)).length = 1 ∧
    ∀ c ∈ (upload_dir guessType clientOk s3_root s3_path bucket vis srcDir files).1,
      c.filename = srcDir ++ "/" ++ rel →
        (s3_root = none → c.key = stripSlashes s3_path ++ "/" ++ rel) ∧
        (∀ r0, s3_root = some r0 → r0 ≠ "" →
          c.key = r0 ++ "/" ++ stripSlashes s3_path ++ "/" ++ rel) := by
  rw [upload_dir_ok_eq guessType clientOk s3_root s3_path bucket vis srcDir files hok]
  constructor
  · rw [List.filter_map]
    have hfe : ((fun c => c.filename == srcDir ++ "/" ++ rel) ∘
        (fun r => dirCall guessType s3_root s3_path bucket vis srcDir r true)) =
        (fun r => r == rel) := by
      funext r
      simp only [Function.comp, dirCall]
      exact append_beq (srcDir ++ "/") r rel
    rw [hfe, List.length_map, ← List.countP_eq_length_filter,
      ← List.count_eq_countP]
    exact List.count_eq_one_of_mem hnd hmem
  · intro c hc hcf
    obtain ⟨r, hrmem, hrc⟩ := List.mem_map.mp hc
    subst hrc
    simp only [dirCall] at hcf
    have hrr : r = rel := str_app_left_cancel (srcDir ++ "/") r rel hcf
    subst hrr
    constructor
    · intro h0
      subst h0
      simp [dirCall, dirKey, store_at]
    · intro r0 h0 hne
      subst h0
      simp [dirCall, dirKey, store_at, hne]

/-- C1 witness: directory with files `a/b.txt` and `c.png`, root `assets`,
destination `store`. -/
theorem upload_dir_unique_posix_keys_witness :
    (((upload_dir (fun _ => some "text/plain") (fun _ => true) (some "assets")
        "store" "bkt" "private" "/data" ["a/b.txt", "c.png"]).1.filter
        (fun c => c.filename == "/data" ++ "/" ++ "c.png")).length = 1) ∧
    ∀ c ∈ (upload_dir (fun _ => some "text/plain") (fun _ => true) (some "assets")
        "store" "bkt" "private" "/data" ["a/b.txt", "c.png"]).1,
      c.filename = "/data" ++ "/" ++ "c.png" →
        ((some "assets" : Option String) = none →
          c.key = stripSlashes "store" ++ "/" ++ "c.png") ∧
        (∀ r0, (some "assets" : Option String) = some r0 → r0 ≠ "" →
          c.key = r0 ++ "/" ++ stripSlashes "store" ++ "/" ++ "c.png") :=
  upload_dir_unique_posix_keys (fun _ => some "text/plain") (fun _ => true)
    (some "assets") "store" "bkt" "private" "/data" ["a/b.txt", "c.png"] "c.png"
    (by decide) (by decide) (by decide)

/-- C3: an unguessable mimetype is fatal before the upload call, in both
modes: a single-file upload whose mimetype is `None` makes no client call and
raises; a directory upload whose tree contains a file `rel` with an
unguessable mimetype always ends in an error; and in both modes every client
call ever made carries the mimetype guessed from its file, so no object — in
particular not `rel` — is ever uploaded with a missing content type. -/
theorem mimetype_none_fatal (guessType : String → Option String)
    (clientOk : String → Bool) (s3_root : Option String)
    (s3_path bucket vis p srcDir : String) (files : List String) (rel : String)
    (hp : guessType p = none)
    (hrel : rel ∈ files)
    (hrg : guessType (srcDir ++ "/" ++ rel) = none) :
    upload_file guessType clientOk s3_root s3_path bucket vis p =
      ([], some ("Failed to guess mimetype of `" ++ p ++ "`")) ∧
    (upload_dir guessType clientOk s3_root s3_path bucket vis srcDir files).2.isSome
      = true ∧
    (∀ c ∈ (upload_dir guessType clientOk s3_root s3_path bucket vis srcDir files).1,
      guessType c.filename = some c.contentType) ∧
    (∀ c ∈ (upload_file guessType clientOk s3_root s3_path bucket vis p).1,
      guessType c.filename = some c.contentType) := by
  refine ⟨by simp [upload_file, hp], ?_, ?_, ?_⟩
  · revert hrel
    induction files with
    | nil =>
      intro hrel
      cases hrel
    | cons a t ih =>
      intro hrel
      cases hg : guessType (srcDir ++ "/" ++ a) with
      | none => simp [upload_dir, hg]
      | some mt =>
        have hrt : rel ∈ t := by
          rcases List.mem_cons.mp hrel with h | h
          · subst h
            rw [hrg] at hg
            cases hg
          · exact h
        cases hcl : clientOk (srcDir ++ "/" ++ a) with
        | false => simp [upload_dir, hg, hcl]
        | true => simpa [upload_dir, hg, hcl] using ih hrt
  · clear hrel
    induction files with
    | nil =>
      intro c hc
      simp [upload_dir] at hc
    | cons a t ih =>
      intro c hc
      cases hg : guessType (srcDir ++ "/" ++ a) with
      | none => simp [upload_dir, hg] at hc
      | some mt =>
        cases hcl : clientOk (srcDir ++ "/" ++ a) with
        | true =>
          simp only [upload_dir, hg, hcl, if_true, List.mem_cons] at hc
          rcases hc with hc | hc
          · subst hc
            simpa using hg
          · exact ih c hc
        | false =>
          simp only [upload_dir, hg, hcl, if_false, List.mem_cons,
            List.not_mem_nil, or_false, Bool.false_eq_true] at hc
          subst hc
          simpa using hg
  · intro c hc
    simp [upload_file, hp] at hc

/-- C3 witness: `b` has no guessable mimetype; the single-file upload of
`/data/b` raises without a client call, and the directory upload of `a.txt`
and `b` ends in an error, every completed call carrying its guessed type. -/
theorem mimetype_none_fatal_witness :
    upload_file (fun s => if s = "/data/b" then none else some "text/plain")
        (fun _ => true) (some "assets") "store" "bkt" "private" "/data/b" =
      ([], some ("Failed to guess mimetype of `" ++ "/data/b" ++ "`")) ∧
    (upload_dir (fun s => if s = "/data/b" then none else some "text/plain")
        (fun _ => true) (some "assets") "store" "bkt" "private" "/data"
        ["a.txt", "b"]).2.isSome = true ∧
    (∀ c ∈ (upload_dir (fun s => if s = "/data/b" then none else some "text/plain")
        (fun _ => true) (some "assets") "store" "bkt" "private" "/data"
        ["a.txt", "b"]).1,
      (fun s => if s = "/data/b" then none else some "text/plain") c.filename =
        some c.contentType) ∧
    (∀ c ∈ (upload_file (fun s => if s = "/data/b" then none else some "text/plain")
        (fun _ => true) (some "assets") "store" "bkt" "private" "/data/b").1,
      (fun s => if s = "/data/b" then none else some "text/plain") c.filename =
        some c.contentType) :=
  mimetype_none_fatal (fun s => if s = "/data/b" then none else some "text/plain")
    (fun _ => true) (some "assets") "store" "bkt" "private" "/data/b" "/data"
    ["a.txt", "b"] "b" (by decide) (by decide) (by decide)

/-- C5: when in a directory upload every file before `f` succeeds and `f`
itself fails (unguessable mimetype or a storage-client error), the run raises:
the completed client calls are exactly those for the files before `f`, in
order (no rollback), and no file after `f` is ever attempted — every call made
belongs to a file before `f` or to `f` itself. -/
theorem dir_failure_aborts (guessType : String → Option String)
    (clientOk : String → Bool) (s3_root : Option String)
    (s3_path bucket vis srcDir : String) (pre post : List String) (f : String)
    (hpre : ∀ g ∈ pre, (guessType (srcDir ++ "/" ++ g)).isSome = true ∧
      clientOk (srcDir ++ "/" ++ g) = true)
    (hf : guessType (srcDir ++ "/" ++ f) = none ∨
      clientOk (srcDir ++ "/" ++ f) = false) :
    (upload_dir guessType clientOk s3_root s3_path bucket vis srcDir
        (pre ++ f :: post)).2.isSome = true ∧
    (upload_dir guessType clientOk s3_root s3_path bucket vis srcDir
        (pre ++ f :: post)).1.filter (fun c => c.ok) =
      pre.map (fun g => dirCall guessType s3_root s3_path bucket vis srcDir g true) ∧
    (∀ c ∈ (upload_dir guessType clientOk s3_root s3_path bucket vis srcDir
        (pre ++ f :: post)).1,
      c.filename ∈ (pre ++ [f]).map (fun g => srcDir ++ "/" ++ g)) := by
  induction pre with
  | nil =>
    cases hg : guessType (srcDir ++ "/" ++ f) with
    | none =>
      refine ⟨by simp [upload_dir, hg], by simp [upload_dir, hg], ?_⟩
      intro c hc
      simp [upload_dir, hg] at hc
    | some mt =>
      have hcf : clientOk (srcDir ++ "/" ++ f) = false := by
        rcases hf with hf | hf
        · rw [hf] at hg
          cases hg
        · exact hf
      refine ⟨by simp [upload_dir, hg, hcf], by simp [upload_dir, hg, hcf], ?_⟩
      intro c hc
      simp only [List.nil_append, upload_dir, hg, hcf, Bool.false_eq_true,
        if_false, List.mem_cons, List.not_mem_nil, or_false] at hc
      subst hc
      simp
  | cons a t ih =>
    obtain ⟨hga, hca⟩ := hpre a (List.mem_cons_self a t)
    obtain ⟨mt, hmt⟩ := Option.isSome_iff_exists.mp hga
    obtain ⟨ih1, ih2, ih3⟩ := ih (fun g hg => hpre g (List.mem_cons_of_mem a hg))
    refine ⟨?_, ?_, ?_⟩
    · simpa [upload_dir, hmt, hca] using ih1
    · simp only [List.cons_append, upload_dir, hmt, hca, if_true, List.map_cons]
      rw [List.filter_cons_of_pos (by rfl)]
      simp only [List.append_eq]
      rw [ih2]
      simp [dirCall, hmt]
    · intro c hc
      simp only [List.cons_append, upload_dir, hmt, hca, if_true,
        List.mem_cons] at hc
      rcases hc with hc | hc
      · subst hc
        exact List.mem_map_of_mem _ (List.mem_append_left _ (List.mem_cons_self a t))
      · obtain ⟨g, hgmem, hgeq⟩ := List.mem_map.mp (ih3 c hc)
        refine hgeq ▸ List.mem_map_of_mem _ ?_
        have he : (a :: t) ++ [f] = a :: (t ++ [f]) := rfl
        rw [he]
        exact List.mem_cons_of_mem a hgmem

/-- C5 witness: `a.txt` succeeds, `b` fails to guess, `c.png` is never
attempted. -/
theorem dir_failure_aborts_witness :
    (upload_dir (fun s => if s = "/d/b" then none else some "text/plain")
        (fun _ => true) (some "assets") "store" "bkt" "private" "/d"
        (["a.txt"] ++ "b" :: ["c.png"])).2.isSome = true ∧
    (upload_dir (fun s => if s = "/d/b" then none else some "text/plain")
        (fun _ => true) (some "assets") "store" "bkt" "private" "/d"
        (["a.txt"] ++ "b" :: ["c.png"])).1.filter (fun c => c.ok) =
      ["a.txt"].map (fun g => dirCall
        (fun s => if s = "/d/b" then none else some "text/plain")
        (some "assets") "store" "bkt" "private" "/d" g true) ∧
    (∀ c ∈ (upload_dir (fun s => if s = "/d/b" then none else some "text/plain")
        (fun _ => true) (some "assets") "store" "bkt" "private" "/d"
        (["a.txt"] ++ "b" :: ["c.png"])).1,
      c.filename ∈ (["a.txt"] ++ ["b"]).map (fun g => "/d" ++ "/" ++ g)) :=
  dir_failure_aborts (fun s => if s = "/d/b" then none else some "text/plain")
    (fun _ => true) (some "assets") "store" "bkt" "private" "/d"
    ["a.txt"] ["c.png"] "b" (by decide) (by decide)

/-- C6: an invocation with `--s3_visibility` set to a value outside
`ALLOWED_VISIBILITIES` fails during argument parsing, before any client call
is made; omitting the flag defaults the visibility to `private`. -/
theorem visibility_choices (env : Env) (raw : RawArgs) (v : String)
    (hv : raw.s3_visibility = some v)
    (hbad : ALLOWED_VISIBILITIES.contains v = false) :
    (runMain env raw).1 = [] ∧ (runMain env raw).2.isSome = true ∧
    parseVisibility none = Except.ok "private" := by
  have hvis : parseVisibility raw.s3_visibility =
      Except.error ("argument --s3_visibility: invalid choice: " ++ v) := by
    rw [hv]
    simp only [parseVisibility]
    rw [hbad]
    simp
  have key : (runMain env raw).1 = [] ∧ (runMain env raw).2.isSome = true := by
    unfold runMain parse_args
    cases hpo : path_object env.pathExists env.baseDir raw.path with
    | error e => simp
    | ok p =>
      rw [hvis]
      simp
  exact ⟨key.1, key.2, rfl⟩

/-- C6 witness: `--s3_visibility public` is rejected before any client call. -/
theorem visibility_choices_witness :
    (runMain
        (Env.mk (fun _ => true) "/app" (fun _ => false) (fun _ => [])
          (fun _ => some "text/plain") (fun _ => true))
        (RawArgs.mk "ak" "sk" "ep" "rg" "bkt" "store" "data" none
          (some "public"))).1 = [] ∧
    (runMain
        (Env.mk (fun _ => true) "/app" (fun _ => false) (fun _ => [])
          (fun _ => some "text/plain") (fun _ => true))
        (RawArgs.mk "ak" "sk" "ep" "rg" "bkt" "store" "data" none
          (some "public"))).2.isSome = true ∧
    parseVisibility none = Except.ok "private" :=
  visibility_choices
    (Env.mk (fun _ => true) "/app" (fun _ => false) (fun _ => [])
      (fun _ => some "text/plain") (fun _ => true))
    (RawArgs.mk "ak" "sk" "ep" "rg" "bkt" "store" "data" none (some "public"))
    "public" rfl (by decide)

/-- C8: the `--path` value is resolved against the program's own directory;
when the resolved path does not exist, argument parsing fails with a usage
error whose message names the resolved path, before any client call; for a
relative value the resolution is `baseDir ++ "/" ++ value`. -/
theorem bad_path_usage_error (env : Env) (raw : RawArgs)
    (h : env.pathExists (pathJoin env.baseDir raw.path) = false) :
    (runMain env raw).1 = [] ∧
    (runMain env raw).2 =
      some ("Unable to resolve path `" ++ pathJoin env.baseDir raw.path ++
        "`. Path argument must be a valid path.") ∧
    (absoluteArg raw.path = false →
      pathJoin env.baseDir raw.path = env.baseDir ++ "/" ++ raw.path) := by
  have hpo : path_object env.pathExists env.baseDir raw.path =
      Except.error ("Unable to resolve path `" ++ pathJoin env.baseDir raw.path ++
        "`. Path argument must be a valid path.") := by
    simp [path_object, h]
  refine ⟨?_, ?_, ?_⟩
  · simp [runMain, parse_args, hpo]
  · simp [runMain, parse_args, hpo]
  · intro habs
    simp [pathJoin, habs]

/-- C8 witness: `--path data` resolved against `/app` does not exist; the
error message names `/app/data` and no client call is made. -/
theorem bad_path_usage_error_witness :
    (runMain
        (Env.mk (fun _ => false) "/app" (fun _ => false) (fun _ => [])
          (fun _ => some "text/plain") (fun _ => true))
        (RawArgs.mk "ak" "sk" "ep" "rg" "bkt" "store" "data" none none)).1 = [] ∧
    (runMain
        (Env.mk (fun _ => false) "/app" (fun _ => false) (fun _ => [])
          (fun _ => some "text/plain") (fun _ => true))
        (RawArgs.mk "ak" "sk" "ep" "rg" "bkt" "store" "data" none none)).2 =
      some ("Unable to resolve path `" ++ pathJoin "/app" "data" ++
        "`. Path argument must be a valid path.") ∧
    (absoluteArg "data" = false →
      pathJoin "/app" "data" = "/app" ++ "/" ++ "data") :=
  bad_path_usage_error
    (Env.mk (fun _ => false) "/app" (fun _ => false) (fun _ => [])
      (fun _ => some "text/plain") (fun _ => true))
    (RawArgs.mk "ak" "sk" "ep" "rg" "bkt" "store" "data" none none) rfl
